import Mathlib

/-!
Verification of the CSml/MCml VS Code linting extension.

We shallowly embed the extension's JavaScript source (the persistent-process
linter in the main extension module) into Lean:

* the Issue → Diagnostic translation performed inside `runLinter`;
* the quick-fix provider `CsmlQuickFixProvider.provideCodeActions`;
* the stdout-listener / response-decoding mechanics of
  `lintWithPersistentProcess` as a small operational semantics;
* the process pool `getLinterProcess` / `startLinterProcess`;
* the save / change (debounce) scheduling in `registerLinters`.

JavaScript values that may be `undefined` are embedded as `Option`; JS numbers
appearing in issue records are embedded as `Int` (the linter protocol only
carries integers; `NaN` never arises from the modelled JSON parser).
-/

namespace CsmlExt

/-- The two `vscode.DiagnosticSeverity` values the extension produces. -/
inductive Severity where
  | error
  | warning
deriving DecidableEq, Repr

/-- A `vscode.Range` as built by `runLinter`: single-line ranges
`(line, column) - (line, column + len)` are the only ones constructed, but we
keep the four fields of the constructor call. -/
structure Range where
  startLine : Int
  startCharacter : Int
  endLine : Int
  endCharacter : Int
deriving DecidableEq, Repr

/-- One issue record of the wire protocol:
`{ line, column, length?, severity?, message, code? }`.
Optional JSON fields are `Option`. -/
structure Issue where
  line : Int
  column : Int
  len : Option Int
  severity : Option Int
  message : String
  code : Option String
deriving DecidableEq, Repr

/-- A `vscode.Diagnostic` as assembled by `runLinter`: the constructor sets
`range`, `message`, `severity`; the `code` property is assigned afterwards
only when `issue.code` is truthy. -/
structure Diagnostic where
  range : Range
  message : String
  severity : Severity
  code : Option String
deriving DecidableEq, Repr

/-- JavaScript truthiness of `issue.length` (an optional integer):
`undefined` and `0` are falsy. -/
def intTruthy : Option Int → Bool
  | none => false
  | some n => n != 0

/-- JavaScript truthiness of `issue.code` (an optional string):
`undefined` and the empty string are falsy. -/
def strTruthy : Option String → Bool
  | none => false
  | some s => s != ""

/-- The Issue → Diagnostic translation inside `runLinter`:

```js
const range = new vscode.Range(issue.line, issue.column,
                               issue.line, issue.column + (issue.length || 1));
const severity = issue.severity === 1 ? Warning : Error;
const diagnostic = new vscode.Diagnostic(range, issue.message, severity);
if (issue.code) { diagnostic.code = issue.code; }
```

`issue.length || 1` evaluates to `1` whenever `issue.length` is falsy
(absent or `0`), and `if (issue.code)` copies the code only when it is
truthy (present and non-empty). -/
def translateIssue (issue : Issue) : Diagnostic :=
  let effLen : Int := match issue.len with
    | some n => if n != 0 then n else 1
    | none => 1
  { range := { startLine := issue.line
               startCharacter := issue.column
               endLine := issue.line
               endCharacter := issue.column + effLen }
    message := issue.message
    severity := if issue.severity == some 1 then .warning else .error
    code := if strTruthy issue.code then issue.code else none }

/-- A workspace edit as produced by a quick fix: a single
`edit.replace(document.uri, range, newText)` call. -/
structure ReplaceEdit where
  uri : String
  range : Range
  newText : String
deriving DecidableEq, Repr

/-- A `vscode.CodeAction` as built by the quick-fix provider. -/
structure CodeAction where
  title : String
  edits : List ReplaceEdit
  diagnostics : List Diagnostic
  isPreferred : Bool
deriving DecidableEq, Repr

/-- The action pushed for one recognized diagnostic: title, a single
replacement of exactly the diagnostic's range, the diagnostic attached,
`isPreferred = true`. -/
def mkFix (uri : String) (d : Diagnostic) (title newText : String) : CodeAction :=
  { title := title
    edits := [{ uri := uri, range := d.range, newText := newText }]
    diagnostics := [d]
    isPreferred := true }

/-- The body of the `for (const diagnostic of context.diagnostics)` loop of
`CsmlQuickFixProvider.provideCodeActions`: the `if / else if / else if`
chain on `diagnostic.code` produces at most one action per diagnostic. -/
def actionsForDiagnostic (uri : String) (d : Diagnostic) : List CodeAction :=
  if d.code == some "replace-with-C" then
    [mkFix uri d "Replace with 'C'" "C"]
  else if d.code == some "replace-with-??" then
    [mkFix uri d "Replace with '??'" "??"]
  else if d.code == some "universal-rule" then
    [mkFix uri d "Replace with a default rule" "default"]
  else
    []

/-- The method `CsmlQuickFixProvider.provideCodeActions`: iterates over
`context.diagnostics`, pushing the recognized fixes in order. -/
def provideCodeActions (uri : String) (contextDiagnostics : List Diagnostic) :
    List CodeAction :=
  match contextDiagnostics with
  | [] => []
  | d :: rest => actionsForDiagnostic uri d ++ provideCodeActions uri rest

/-! ### Model of the external `JSON.parse` on the response schema

`lintWithPersistentProcess` decodes each response line with the JavaScript
builtin `JSON.parse`, which is an external collaborator, not repository code.
We model it by a concrete executable parser restricted to the documented
response schema: an array of issue objects whose fields are
`line : int, column : int, length : int?, severity : int?, message : string,
code : string?`.  String literals are parsed without escape sequences, and a
value outside the schema is treated as a decode failure; the claims only
exercise syntactically well-formed issue arrays and syntactically malformed
payloads, on which this model and `JSON.parse` agree. -/

/-- JSON whitespace. -/
def isJsonWs (c : Char) : Bool :=
  c == ' ' || c == '\t' || c == '\n' || c == '\r'

/-- Drop leading JSON whitespace. -/
def skipWs : List Char → List Char
  | c :: cs => if isJsonWs c then skipWs cs else c :: cs
  | [] => []

/-- Parse a nonempty run of decimal digits. -/
def parseDigits (cs : List Char) : Option (Nat × List Char) :=
  let ds := cs.takeWhile (·.isDigit)
  if ds.isEmpty then none
  else some (ds.foldl (fun a c => 10 * a + (c.toNat - 48)) 0, cs.drop ds.length)

/-- Parse a JSON integer (optional minus sign, then digits). -/
def parseInt : List Char → Option (Int × List Char)
  | '-' :: cs => (parseDigits cs).map (fun p => (-(p.1 : Int), p.2))
  | cs => (parseDigits cs).map (fun p => ((p.1 : Int), p.2))

/-- Parse a JSON string literal (no escape sequences). -/
def parseStringLit : List Char → Option (String × List Char)
  | '"' :: cs =>
    let body := cs.takeWhile (· != '"')
    match cs.drop body.length with
    | '"' :: rest => some (String.mk body, rest)
    | _ => none
  | _ => none

/-- A scalar JSON value of the response schema: an integer or a string. -/
def parseValue (cs : List Char) : Option ((Int ⊕ String) × List Char) :=
  match parseStringLit cs with
  | some (s, r) => some (Sum.inr s, r)
  | none => (parseInt cs).map (fun p => (Sum.inl p.1, p.2))

/-- An issue object under construction: every schema field still optional. -/
structure RawIssue where
  line : Option Int := none
  column : Option Int := none
  len : Option Int := none
  severity : Option Int := none
  message : Option String := none
  code : Option String := none
deriving DecidableEq, Repr

/-- Record one key/value pair into a partial issue; keys or value types
outside the schema are rejected. -/
def setField (r : RawIssue) (key : String) : Int ⊕ String → Option RawIssue
  | Sum.inl n =>
    if key = "line" then some { r with line := some n }
    else if key = "column" then some { r with column := some n }
    else if key = "length" then some { r with len := some n }
    else if key = "severity" then some { r with severity := some n }
    else none
  | Sum.inr s =>
    if key = "message" then some { r with message := some s }
    else if key = "code" then some { r with code := some s }
    else none

/-- Close a partial issue: the schema's mandatory fields must be present. -/
def finishIssue (r : RawIssue) : Option Issue :=
  match r.line, r.column, r.message with
  | some l, some c, some m =>
    some { line := l, column := c, len := r.len, severity := r.severity,
           message := m, code := r.code }
  | _, _, _ => none

/-- Parse the `"key": value` pairs of an issue object up to the closing
brace, fuelled by the remaining input length. -/
def parseFields : Nat → RawIssue → List Char → Option (RawIssue × List Char)
  | 0, _, _ => none
  | fuel + 1, acc, cs =>
    match parseStringLit (skipWs cs) with
    | none => none
    | some (key, r1) =>
      match skipWs r1 with
      | ':' :: r2 =>
        match parseValue (skipWs r2) with
        | none => none
        | some (v, r3) =>
          match setField acc key v with
          | none => none
          | some acc2 =>
            match skipWs r3 with
            | ',' :: r4 => parseFields fuel acc2 r4
            | '\x7d' :: r4 => some (acc2, r4)
            | _ => none
      | _ => none

/-- Parse one issue object. -/
def parseIssue (cs : List Char) : Option (Issue × List Char) :=
  match cs with
  | '\x7b' :: r =>
    match parseFields (r.length + 1) {} r with
    | some (raw, rest) => (finishIssue raw).map (fun i => (i, rest))
    | none => none
  | _ => none

/-- Parse the comma-separated issue objects of a nonempty array up to the
closing bracket, fuelled by the remaining input length. -/
def parseItems : Nat → List Char → Option (List Issue × List Char)
  | 0, _ => none
  | fuel + 1, cs =>
    match parseIssue (skipWs cs) with
    | none => none
    | some (i, r) =>
      match skipWs r with
      | ',' :: r2 => (parseItems fuel r2).map (fun p => (i :: p.1, p.2))
      | ']' :: r2 => some ([i], r2)
      | _ => none

/-- Model of `JSON.parse` on a whole response line: an array of issue
objects, with nothing but whitespace around it. -/
def parseResponse (s : String) : Option (List Issue) :=
  match skipWs s.data with
  | '[' :: r =>
    match skipWs r with
    | ']' :: rest => if (skipWs rest).isEmpty then some [] else none
    | _ =>
      match parseItems (r.length + 1) r with
      | some (is, rest) => if (skipWs rest).isEmpty then some is else none
      | none => none
  | _ => none

/-! ### Operational model of `lintWithPersistentProcess` and `runLinter`

All lint requests for one document go through one persistent worker process.
Each call to `lintWithPersistentProcess` registers a fresh `onData` listener
on the worker's stdout (with its own closure-local `output` accumulator) and
then writes the encoded request to the worker's stdin.  A stdout data event
is delivered to every listener registered at that moment, in registration
order; a listener whose accumulated `output` ends with `'\n'` unregisters
itself and runs `JSON.parse(output.trim())` — on success `runLinter`'s
callback replaces the document's diagnostics, on failure it logs
`Invalid JSON received`.

The model tracks, for one document: the active listeners, the bytes written
to stdin, the published diagnostics (`none` = never set), the successful
decodes as `(sequence number, issues)` pairs, and the number of decode-error
log lines.  Sequence numbers are a ghost annotation (the code itself stamps
no sequence numbers on requests): each request is numbered in issue order,
starting at 1, so that the claims about request ordering can be stated. -/

/-- One active `onData` listener registered by `lintWithPersistentProcess`:
the ghost sequence number of the request it serves, and its closure-local
`output` accumulator. -/
structure Listener where
  seq : Nat
  output : String
deriving DecidableEq, Repr

/-- The state of the extension around one worker and one document. -/
structure ExtState where
  listeners : List Listener
  stdinWrites : List String
  published : Option (List Diagnostic)
  decoded : List (Nat × List Issue)
  errorLog : Nat
  nextSeq : Nat
deriving DecidableEq, Repr

/-- The initial state: no listeners, nothing written, no diagnostics ever
published. -/
def initExt : ExtState :=
  { listeners := [], stdinWrites := [], published := none, decoded := [],
    errorLog := 0, nextSeq := 1 }

/-- Encoding of a request: `JSON.stringify({ code }) + '\n'` (string escaping
elided; the claims never inspect the payload). -/
def encodeRequest (code : String) : String :=
  "\x7b\"code\":\"" ++ code ++ "\"\x7d\n"

/-- One call to `lintWithPersistentProcess`: register a fresh listener with
empty `output`, then write the encoded request to the worker's stdin. -/
def issueRequest (s : ExtState) (code : String) : ExtState :=
  { s with
    listeners := s.listeners ++ [{ seq := s.nextSeq, output := "" }]
    stdinWrites := s.stdinWrites ++ [encodeRequest code]
    nextSeq := s.nextSeq + 1 }

/-- JavaScript `output.endsWith('\n')`. -/
def endsWithSep (s : String) : Bool :=
  s.data.getLast? == some '\n'

/-- JavaScript `String.prototype.trim`: strip whitespace from both ends. -/
def jsTrim (s : String) : String :=
  String.mk (((s.data.dropWhile isJsonWs).reverse.dropWhile isJsonWs).reverse)

/-- Deliver one data chunk to one listener: append it to `output`; when the
buffer now ends with the separator, the listener unregisters and parses the
whole trimmed buffer, yielding either the still-active listener or the
outcome `(seq, parse result)`. -/
def feedListener (l : Listener) (data : String) :
    Listener ⊕ (Nat × Option (List Issue)) :=
  let out := l.output ++ data
  if endsWithSep out then Sum.inr (l.seq, parseResponse (jsTrim out))
  else Sum.inl { l with output := out }

/-- The fold step for one listener during a stdout data event: a successful
parse runs `runLinter`'s callback, which publishes the translated
diagnostics wholesale; a failed parse logs one error line. -/
def chunkStep (data : String) (acc : ExtState × List Listener) (l : Listener) :
    ExtState × List Listener :=
  match feedListener l data with
  | Sum.inl l2 => (acc.1, acc.2 ++ [l2])
  | Sum.inr (sq, some issues) =>
    ({ acc.1 with
        published := some (issues.map translateIssue)
        decoded := acc.1.decoded ++ [(sq, issues)] }, acc.2)
  | Sum.inr (_, none) =>
    ({ acc.1 with errorLog := acc.1.errorLog + 1 }, acc.2)

/-- One stdout data event: every listener registered at emit time receives
the chunk, in registration order. -/
def deliverChunk (s : ExtState) (data : String) : ExtState :=
  let r := s.listeners.foldl (chunkStep data) (s, [])
  { r.1 with listeners := r.2 }

/-- An environment event: the extension issues a lint request for the
document, or the worker's stdout delivers a chunk of bytes. -/
inductive Event where
  | request (code : String)
  | chunk (data : String)
deriving DecidableEq, Repr

/-- Step the extension state by one event. -/
def stepEvent (s : ExtState) : Event → ExtState
  | Event.request code => issueRequest s code
  | Event.chunk data => deliverChunk s data

/-- Run a trace of events from a state. -/
def runEvents (s : ExtState) (evs : List Event) : ExtState :=
  evs.foldl stepEvent s

/-! ### Model of the process pool (`pythonProcesses`, `getLinterProcess`,
`startLinterProcess`)

A spawned process is modelled by a fresh identifier, the linter script it was
started with, and a liveness flag.  A crash is an external event that kills
the OS process; nothing in the source registers an exit or close handler that
would touch the `pythonProcesses` map, so a crash only flips the liveness
flag of the process the map still holds. -/

/-- A spawned linter subprocess handle. -/
structure Proc where
  id : Nat
  script : String
  alive : Bool
deriving DecidableEq, Repr

/-- The pool state: the `pythonProcesses` map (as an association list keyed
by language) and a counter supplying fresh process identifiers. -/
structure PoolState where
  procs : List (String × Proc)
  nextPid : Nat
deriving DecidableEq, Repr

/-- The empty pool. -/
def initPool : PoolState := { procs := [], nextPid := 0 }

/-- Lookup in the `pythonProcesses` map. -/
def poolLookup (m : List (String × Proc)) (k : String) : Option Proc :=
  match m with
  | [] => none
  | (k2, p) :: rest => if k2 = k then some p else poolLookup rest k

/-- Insertion into the `pythonProcesses` map. -/
def poolInsert (m : List (String × Proc)) (k : String) (p : Proc) :
    List (String × Proc) :=
  match m with
  | [] => [(k, p)]
  | (k2, q) :: rest =>
    if k2 = k then (k2, p) :: rest else (k2, q) :: poolInsert rest k p

/-- The function `startLinterProcess`: picks the per-language linter script
and spawns a fresh process running it. -/
def startLinterProcess (s : PoolState) (language : String) : Proc × PoolState :=
  let scriptName := if language = "csml" then "csml_linter.py" else "mcml_linter.py"
  let proc : Proc := { id := s.nextPid, script := scriptName, alive := true }
  (proc, { s with nextPid := s.nextPid + 1 })

/-- The function `getLinterProcess`: spawn and cache a process only when the
map has no entry for the language; otherwise return the cached entry,
whatever its state. -/
def getLinterProcess (s : PoolState) (language : String) : Proc × PoolState :=
  match poolLookup s.procs language with
  | some p => (p, s)
  | none =>
    let r := startLinterProcess s language
    (r.1, { r.2 with procs := poolInsert s.procs language r.1 })

/-- An external crash of the worker for a language: the OS process dies, but
the `pythonProcesses` map keeps its (now dead) handle, since the source
attaches no exit or close handler that would remove it. -/
def crashWorker (s : PoolState) (language : String) : PoolState :=
  { s with
    procs := s.procs.map (fun kp =>
      if kp.1 = language then (kp.1, { kp.2 with alive := false }) else kp) }

/-! ### Model of the scheduler in `registerLinters`

One document is modelled.  The state carries the pending debounce deadline
(the `debounceMap` entry, at most one per document by construction), the
lint requests issued so far as `(time, text)` pairs, and the document's
current text.  Events are timestamped and processed in time order; before an
event at time `t` is handled, a pending timer whose deadline has passed
fires (running `runLinter`, which reads the document text at fire time, and
deleting the map entry).  The change handler clears the pending timer and
arms a new one 300 time units ahead; the save handler calls `runLinter`
immediately and does not touch the timer. -/

/-- The scheduler state for one supported document. -/
structure SchedState where
  pending : Option Nat
  requests : List (Nat × String)
  doc : String
deriving DecidableEq, Repr

/-- The scheduler state at activation, with the document's initial text. -/
def initSched (text : String) : SchedState :=
  { pending := none, requests := [], doc := text }

/-- Fire the pending debounce timer when its deadline has passed: the timer
callback runs `runLinter` on the document (reading its text at fire time)
and deletes the `debounceMap` entry. -/
def fireIfDue (s : SchedState) (now : Nat) : SchedState :=
  match s.pending with
  | some d =>
    if d ≤ now then
      { s with requests := s.requests ++ [(d, s.doc)], pending := none }
    else s
  | none => s

/-- An editor event on the document: a content change carrying the new text,
or a save. -/
inductive SchedEvent where
  | edit (newText : String)
  | save
deriving DecidableEq, Repr

/-- Handle one timestamped editor event.  The change handler runs
`clearTimeout(debounceMap.get(uri))` and arms a fresh 300-unit timer; the
save handler runs `runLinter` immediately, leaving `debounceMap` alone. -/
def schedStep (s : SchedState) (t : Nat) (e : SchedEvent) : SchedState :=
  let s1 := fireIfDue s t
  match e with
  | SchedEvent.edit txt => { s1 with doc := txt, pending := some (t + 300) }
  | SchedEvent.save => { s1 with requests := s1.requests ++ [(t, s1.doc)] }

/-- Run a time-ordered trace of editor events. -/
def runSched (s : SchedState) (evs : List (Nat × SchedEvent)) : SchedState :=
  evs.foldl (fun s2 te => schedStep s2 te.1 te.2) s

/-- Let all remaining time pass after the trace: a still-pending timer fires. -/
def flushSched (s : SchedState) : SchedState :=
  match s.pending with
  | some d => { s with requests := s.requests ++ [(d, s.doc)], pending := none }
  | none => s

/-- A burst of timestamped edits: each edit arrives strictly less than 300
time units after the previous one. -/
def withinGap : List (Nat × String) → Bool
  | (t1, _) :: (t2, x2) :: rest =>
    decide (t2 < t1 + 300) && withinGap ((t2, x2) :: rest)
  | _ => true

/-- View a timestamped edit as a scheduler event. -/
def mkEdit (p : Nat × String) : Nat × SchedEvent :=
  (p.1, SchedEvent.edit p.2)

/-! ## Claims about the Issue → Diagnostic translation (C2, C10) -/

/-- C2, counterexample.  The claim states that when the `length` field is
present the range end column is `column + length`, and that the `code` field
is copied onto the Diagnostic whenever it is present.  Both fail on the
code's truthiness tests: an issue with `length = 0` gets end column
`column + 1` (not `column + 0 = 2`), and an issue whose `code` field is the
present-but-empty string is translated with no code at all. -/
theorem c2_translate_counterexample :
    (translateIssue { line := 1, column := 2, len := some 0, severity := some 1,
                      message := "m", code := none }).range.endCharacter = 3 ∧
    (3 : Int) ≠ 2 + 0 ∧
    (translateIssue { line := 0, column := 0, len := none, severity := none,
                      message := "m", code := some "" }).code = none ∧
    (none : Option String) ≠ some "" := by
  refine ⟨rfl, by decide, rfl, by decide⟩

/-- C2, amended.  The translation satisfies the claimed mapping except on
JavaScript-falsy field values: range start is `(line, column)`, range end is
`(line, column + length)` for a present nonzero `length` and
`(line, column + 1)` when `length` is absent or `0`; severity is Warning
exactly when the `severity` field equals `1`, Error otherwise; the message
is copied unchanged; the `code` field is copied exactly when it is present
and non-empty, and the Diagnostic carries no code when the field is absent
or the empty string. -/
theorem c2_translate_amended (issue : Issue) :
    (translateIssue issue).range.startLine = issue.line ∧
    (translateIssue issue).range.startCharacter = issue.column ∧
    (translateIssue issue).range.endLine = issue.line ∧
    (∀ l : Int, issue.len = some l → l ≠ 0 →
      (translateIssue issue).range.endCharacter = issue.column + l) ∧
    (issue.len = none ∨ issue.len = some 0 →
      (translateIssue issue).range.endCharacter = issue.column + 1) ∧
    ((translateIssue issue).severity = Severity.warning ↔ issue.severity = some 1) ∧
    (translateIssue issue).message = issue.message ∧
    (∀ c : String, issue.code = some c → c ≠ "" →
      (translateIssue issue).code = some c) ∧
    (issue.code = none ∨ issue.code = some "" →
      (translateIssue issue).code = none) := by
  obtain ⟨line, column, len, severity, message, code⟩ := issue
  refine ⟨rfl, rfl, rfl, ?_, ?_, ?_, rfl, ?_, ?_⟩
  · rintro l rfl hl
    simp [translateIssue, hl]
  · rintro (rfl | rfl) <;> simp [translateIssue]
  · rcases severity with _ | n
    · simp [translateIssue]
    · by_cases hn : n = 1 <;> simp [translateIssue, hn]
  · rintro c rfl hc
    simp [translateIssue, strTruthy, hc]
  · rintro (rfl | rfl) <;> simp [translateIssue, strTruthy]

/-- C2, amended, witness at the spec's own example issue
`{line 2, column 3, length 4, severity 1, message "m", code "replace-with-C"}`. -/
theorem c2_translate_amended_witness :
    (translateIssue { line := 2, column := 3, len := some 4, severity := some 1,
                      message := "m", code := some "replace-with-C" }).range.endCharacter
        = 3 + 4 ∧
    (translateIssue { line := 2, column := 3, len := some 4, severity := some 1,
                      message := "m", code := some "replace-with-C" }).severity
        = Severity.warning ∧
    (translateIssue { line := 2, column := 3, len := some 4, severity := some 1,
                      message := "m", code := some "replace-with-C" }).code
        = some "replace-with-C" := by
  refine ⟨(c2_translate_amended _).2.2.2.1 4 rfl (by decide),
          ((c2_translate_amended _).2.2.2.2.2.1).mpr rfl,
          (c2_translate_amended _).2.2.2.2.2.2.2.1 "replace-with-C" rfl (by decide)⟩

/-- C10, confirmed.  An issue whose `length` field is present but `0` (the
only falsy integer) is translated exactly as if the field were absent: the
range end column is `column + 1`. -/
theorem c10_falsy_length (issue : Issue) (h : issue.len = some 0) :
    (translateIssue issue).range.endCharacter = issue.column + 1 ∧
    translateIssue issue = translateIssue { issue with len := none } := by
  obtain ⟨line, column, len, severity, message, code⟩ := issue
  cases h
  exact ⟨rfl, rfl⟩

/-- C10, witness: a concrete issue with `length = 0`. -/
theorem c10_falsy_length_witness :
    (translateIssue { line := 5, column := 7, len := some 0, severity := none,
                      message := "w", code := none }).range.endCharacter = 7 + 1 :=
  (c10_falsy_length _ rfl).1

/-! ## Claim about the quick-fix provider (C9) -/

/-- C9, confirmed.  For each diagnostic handed to the provider: when its
code is one of the three recognized codes, the provider produces exactly one
preferred action whose sole edit replaces exactly that diagnostic's range
with the mapped literal (`C`, `??`, `default` respectively) and which
carries that one diagnostic; an absent or unrecognized code produces no
action; and `provideCodeActions` is the concatenation, in order, of the
per-diagnostic actions. -/
theorem c9_quickfix (uri : String) (d : Diagnostic) :
    (d.code = some "replace-with-C" →
      actionsForDiagnostic uri d =
        [{ title := "Replace with 'C'"
           edits := [{ uri := uri, range := d.range, newText := "C" }]
           diagnostics := [d], isPreferred := true }]) ∧
    (d.code = some "replace-with-??" →
      actionsForDiagnostic uri d =
        [{ title := "Replace with '??'"
           edits := [{ uri := uri, range := d.range, newText := "??" }]
           diagnostics := [d], isPreferred := true }]) ∧
    (d.code = some "universal-rule" →
      actionsForDiagnostic uri d =
        [{ title := "Replace with a default rule"
           edits := [{ uri := uri, range := d.range, newText := "default" }]
           diagnostics := [d], isPreferred := true }]) ∧
    (d.code = none → actionsForDiagnostic uri d = []) ∧
    (∀ c : String, d.code = some c → c ≠ "replace-with-C" →
      c ≠ "replace-with-??" → c ≠ "universal-rule" →
      actionsForDiagnostic uri d = []) ∧
    (∀ ds : List Diagnostic,
      provideCodeActions uri (d :: ds) =
        actionsForDiagnostic uri d ++ provideCodeActions uri ds) := by
  refine ⟨?_, ?_, ?_, ?_, ?_, fun ds => rfl⟩
  · intro h; simp [actionsForDiagnostic, h, mkFix]
  · intro h; simp [actionsForDiagnostic, h, mkFix]
  · intro h; simp [actionsForDiagnostic, h, mkFix]
  · intro h; simp [actionsForDiagnostic, h]
  · intro c hc h1 h2 h3
    simp [actionsForDiagnostic, hc, h1, h2, h3]

/-- C9, witness at the spec's example: a diagnostic with code
`universal-rule` over range `(1,0)-(1,1)` yields the single preferred action
replacing exactly that span with `default`. -/
theorem c9_quickfix_witness :
    actionsForDiagnostic "file"
        { range := { startLine := 1, startCharacter := 0, endLine := 1,
                     endCharacter := 1 }
          message := "m", severity := Severity.error,
          code := some "universal-rule" } =
      [{ title := "Replace with a default rule"
         edits := [{ uri := "file"
                     range := { startLine := 1, startCharacter := 0, endLine := 1,
                                endCharacter := 1 }
                     newText := "default" }]
         diagnostics := [{ range := { startLine := 1, startCharacter := 0,
                                      endLine := 1, endCharacter := 1 }
                           message := "m", severity := Severity.error,
                           code := some "universal-rule" }]
         isPreferred := true }] :=
  (c9_quickfix "file" _).2.2.1 rfl

/-! ## Claims about the response stream handling (C1, C3, C7, C8) -/

/-- The result of the last listener in fold order whose accumulated buffer,
extended by the chunk, terminates and parses successfully during one stdout
data event. -/
def lastParse (data : String) : List Listener → Option (List Issue)
  | [] => none
  | l :: ls =>
    match lastParse data ls with
    | some r => some r
    | none =>
      match feedListener l data with
      | Sum.inr (_, some issues) => some issues
      | _ => none

/-- Folding `chunkStep` over any listener list publishes the translation of
the last successful parse, and leaves the published diagnostics untouched
when no listener parses successfully. -/
theorem foldl_chunkStep_published (data : String) :
    ∀ (ls : List Listener) (s : ExtState) (r : List Listener),
      ((ls.foldl (chunkStep data) (s, r)).1).published =
        match lastParse data ls with
        | some issues => some (issues.map translateIssue)
        | none => s.published := by
  intro ls
  induction ls with
  | nil => intro s r; rfl
  | cons l ls ih =>
    intro s r
    rcases h : feedListener l data with l2 | ⟨sq, o⟩
    · have hstep : chunkStep data (s, r) l = (s, r ++ [l2]) := by
        simp [chunkStep, h]
      rw [List.foldl_cons, hstep, ih]
      simp only [lastParse, h]
      rcases lastParse data ls with _ | x <;> rfl
    · rcases o with _ | issues
      · have hstep : chunkStep data (s, r) l =
            ({ s with errorLog := s.errorLog + 1 }, r) := by
          simp [chunkStep, h]
        rw [List.foldl_cons, hstep, ih]
        simp only [lastParse, h]
        rcases lastParse data ls with _ | x <;> rfl
      · have hstep : chunkStep data (s, r) l =
            ({ s with published := some (issues.map translateIssue)
                      decoded := s.decoded ++ [(sq, issues)] }, r) := by
          simp [chunkStep, h]
        rw [List.foldl_cons, hstep, ih]
        simp only [lastParse, h]
        rcases lastParse data ls with _ | x <;> rfl

/-- C1, counterexample.  Requests R1 (seq 1) and R2 (seq 2) are issued for
the document; the worker's response to R2 (one issue at line 1, column 2)
arrives first and is accepted and published — the decode log records it
against sequence number 2.  A third request R3 is then issued, and the
worker's response to R1 (an empty issue array, delayed by scheduling
jitter) arrives afterwards.  Contrary to the claim, the late response to R1
is not discarded: the listener registered by R3 decodes it and the
published diagnostics are overwritten from R2's issue list to R1's empty
list. -/
theorem c1_fencing_counterexample :
    (runEvents initExt
      [Event.request "a", Event.request "b",
       Event.chunk "[\x7b\"line\":1,\"column\":2,\"message\":\"m\"\x7d]\n"]).published =
      some [{ range := { startLine := 1, startCharacter := 2, endLine := 1,
                         endCharacter := 3 }
              message := "m", severity := Severity.error, code := none }] ∧
    (2, [{ line := 1, column := 2, len := none, severity := none,
           message := "m", code := none }]) ∈
      (runEvents initExt
        [Event.request "a", Event.request "b",
         Event.chunk "[\x7b\"line\":1,\"column\":2,\"message\":\"m\"\x7d]\n"]).decoded ∧
    (runEvents initExt
      [Event.request "a", Event.request "b",
       Event.chunk "[\x7b\"line\":1,\"column\":2,\"message\":\"m\"\x7d]\n",
       Event.request "c", Event.chunk "[]\n"]).published = some [] ∧
    ([] : List Diagnostic) ≠
      [{ range := { startLine := 1, startCharacter := 2, endLine := 1,
                    endCharacter := 3 }
         message := "m", severity := Severity.error, code := none }] := by
  exact ⟨rfl, by decide, rfl, by decide⟩

/-- C1, amended.  The code performs no sequence fencing: on every stdout
data event the published diagnostics become the translation of the last
listener buffer that parses successfully, irrespective of the sequence
numbers of the requests involved, and stay unchanged only when no listener
parses successfully.  In particular a later-arriving response to an earlier
request is decoded and published by whatever listener is then active,
overwriting diagnostics published for a newer request. -/
theorem c1_last_decode_wins (s : ExtState) (data : String) :
    (deliverChunk s data).published =
      match lastParse data s.listeners with
      | some issues => some (issues.map translateIssue)
      | none => s.published := by
  have h := foldl_chunkStep_published data s.listeners s []
  simpa [deliverChunk] using h

/-- C3, counterexample.  A single chunk carrying two separator-terminated
records, each individually well-formed (`[]` parses), is appended to the
listener's buffer and — because the buffer ends with the separator — parsed
as one record, which fails.  Zero responses are decoded, one decode error
is logged, and nothing is published, contrary to the claim that each record
is decoded as its own response. -/
theorem c3_chunk_decoder_counterexample :
    parseResponse "[]" = some [] ∧
    (runEvents initExt [Event.request "a", Event.chunk "[]\n[]\n"]).decoded = [] ∧
    (runEvents initExt [Event.request "a", Event.chunk "[]\n[]\n"]).errorLog = 1 ∧
    (runEvents initExt [Event.request "a", Event.chunk "[]\n[]\n"]).published = none := by
  exact ⟨rfl, rfl, rfl, rfl⟩

/-- C3, amended.  The listener does accumulate chunks in an unbounded
buffer, and a response split across several chunks is decoded once the
chunk carrying its terminating separator arrives; but on seeing a buffer
that ends with the separator the code decodes the whole buffer as exactly
one record, so a buffer holding several separator-terminated records is
rejected as malformed rather than split into individual responses. -/
theorem c3_split_chunk_decode (s : ExtState) (l : Listener) (d1 d2 : String)
    (issues : List Issue)
    (hl : s.listeners = [l])
    (h1 : endsWithSep (l.output ++ d1) = false)
    (h2 : endsWithSep (l.output ++ d1 ++ d2) = true)
    (hp : parseResponse (jsTrim (l.output ++ d1 ++ d2)) = some issues) :
    (deliverChunk (deliverChunk s d1) d2).published =
      some (issues.map translateIssue) ∧
    (deliverChunk (deliverChunk s d1) d2).decoded =
      s.decoded ++ [(l.seq, issues)] ∧
    (deliverChunk (deliverChunk s d1) d2).listeners = [] := by
  have e1 : deliverChunk s d1 =
      { s with listeners := [{ l with output := l.output ++ d1 }] } := by
    simp [deliverChunk, hl, chunkStep, feedListener, h1]
  have e2 : feedListener { l with output := l.output ++ d1 } d2 =
      Sum.inr (l.seq, some issues) := by
    simp [feedListener, h2, hp]
  rw [e1]
  simp [deliverChunk, chunkStep, e2]

/-- C3, amended, witness: a single fresh listener receives `[` and then
`]` followed by the separator; the reassembled response `[]` decodes. -/
theorem c3_split_chunk_decode_witness :
    (deliverChunk (deliverChunk (issueRequest initExt "x") "[") "]\n").published
      = some [] :=
  (c3_split_chunk_decode (issueRequest initExt "x") { seq := 1, output := "" }
    "[" "]\n" [] rfl (by decide) (by decide) (by decide)).1

/-- C7, counterexample.  Two back-to-back lint requests: the second
request's message is written to the worker's stdin although the response to
the first has not been read (no decode has happened, both listeners are
still registered, nothing was published).   Nothing is queued or collapsed;
the claim that exchanges are serialized fails. -/
theorem c7_serialized_counterexample :
    (runEvents initExt [Event.request "a", Event.request "b"]).stdinWrites =
      [encodeRequest "a", encodeRequest "b"] ∧
    (runEvents initExt [Event.request "a", Event.request "b"]).decoded = [] ∧
    (runEvents initExt [Event.request "a", Event.request "b"]).published = none ∧
    (runEvents initExt [Event.request "a", Event.request "b"]).listeners =
      [{ seq := 1, output := "" }, { seq := 2, output := "" }] := by
  exact ⟨rfl, rfl, rfl, rfl⟩

/-- C7, amended.  A request is written to the worker's stdin immediately
and unconditionally — in every state, including states with listeners of
earlier exchanges still registered — and only a new listener is added: no
request is ever queued, deferred, or collapsed with another. -/
theorem c7_immediate_write (s : ExtState) (code : String) :
    (stepEvent s (Event.request code)).stdinWrites =
      s.stdinWrites ++ [encodeRequest code] ∧
    (stepEvent s (Event.request code)).listeners =
      s.listeners ++ [{ seq := s.nextSeq, output := "" }] ∧
    (stepEvent s (Event.request code)).published = s.published ∧
    (stepEvent s (Event.request code)).decoded = s.decoded := by
  exact ⟨rfl, rfl, rfl, rfl⟩

/-- C8, confirmed.  When the single active listener's buffer terminates but
fails to decode, one error line is logged, nothing is decoded or published
for that request and the previously published diagnostics are retained
unchanged; the listener unregisters, and a later request on the same
document whose well-formed response then arrives publishes normally. -/
theorem c8_decode_failure (s : ExtState) (l : Listener) (d code d2 : String)
    (issues : List Issue)
    (hl : s.listeners = [l])
    (hsep : endsWithSep (l.output ++ d) = true)
    (hbad : parseResponse (jsTrim (l.output ++ d)) = none)
    (hsep2 : endsWithSep d2 = true)
    (hgood : parseResponse (jsTrim d2) = some issues) :
    ((deliverChunk s d).published = s.published ∧
     (deliverChunk s d).decoded = s.decoded ∧
     (deliverChunk s d).errorLog = s.errorLog + 1 ∧
     (deliverChunk s d).listeners = []) ∧
    (deliverChunk (issueRequest (deliverChunk s d) code) d2).published =
      some (issues.map translateIssue) := by
  have e1 : deliverChunk s d = { s with errorLog := s.errorLog + 1
                                        listeners := [] } := by
    simp [deliverChunk, hl, chunkStep, feedListener, hsep, hbad]
  constructor
  · rw [e1]; exact ⟨rfl, rfl, rfl, rfl⟩
  · rw [e1]
    have e2 : feedListener { seq := s.nextSeq, output := "" } d2 =
        Sum.inr (s.nextSeq, some issues) := by
      have hd2 : ("" : String) ++ d2 = d2 := rfl
      simp [feedListener, hd2, hsep2, hgood]
    simp [issueRequest, deliverChunk, chunkStep, e2]

/-- C8, witness: a garbage response line is logged and publishes nothing,
and the next request's well-formed response `[]` publishes the empty
diagnostic set. -/
theorem c8_decode_failure_witness :
    (deliverChunk (issueRequest initExt "x") "oops\n").published = none ∧
    (deliverChunk (issueRequest initExt "x") "oops\n").errorLog = 1 ∧
    (deliverChunk (issueRequest (deliverChunk (issueRequest initExt "x") "oops\n")
        "y") "[]\n").published = some [] := by
  have h := c8_decode_failure (issueRequest initExt "x") { seq := 1, output := "" }
    "oops\n" "y" "[]\n" [] rfl (by decide) (by decide) (by decide) (by decide)
  exact ⟨h.1.1, h.1.2.2.1, h.2⟩

/-! ## Claims about scheduling (C4, C5) and the pool (C6) -/

/-- The last edit of the burst `first :: rest`. -/
def lastEdit (p : Nat × String) : List (Nat × String) → Nat × String
  | [] => p
  | q :: rest => lastEdit q rest

/-- Running the tail of an edit burst while a timer armed by the previous
edit is pending: every edit lands before the pending deadline, so no timer
fires; each edit replaces the pending timer and the document text, and the
issued-request list never grows. -/
theorem burst_run :
    ∀ (rest : List (Nat × String)) (t : Nat) (x : String)
      (R : List (Nat × String)),
      withinGap ((t, x) :: rest) = true →
      runSched { pending := some (t + 300), requests := R, doc := x }
          (rest.map mkEdit) =
        { pending := some ((lastEdit (t, x) rest).1 + 300), requests := R,
          doc := (lastEdit (t, x) rest).2 } := by
  intro rest
  induction rest with
  | nil => intro t x R h; rfl
  | cons q rest ih =>
    intro t x R h
    obtain ⟨t2, x2⟩ := q
    rw [withinGap, Bool.and_eq_true] at h
    obtain ⟨h1, h2⟩ := h
    have hgap : t2 < t + 300 := of_decide_eq_true h1
    have estep :
        schedStep { pending := some (t + 300), requests := R, doc := x } t2
            (SchedEvent.edit x2) =
          { pending := some (t2 + 300), requests := R, doc := x2 } := by
      simp [schedStep, fireIfDue, Nat.not_le.mpr hgap]
    show runSched (schedStep { pending := some (t + 300), requests := R, doc := x }
        t2 (SchedEvent.edit x2)) (rest.map mkEdit) = _
    rw [estep]
    exact ih t2 x2 R h2

/-- C4, confirmed.  For a burst of one or more edits in which each edit
arrives strictly less than 300 time units after the previous one, starting
with no pending timer: after the burst no request has been issued and
exactly one timer is pending, armed 300 units after the last edit with the
document holding the last edit's text; letting the idle gap elapse then
issues exactly one request, timestamped 300 units after the last edit and
carrying the last edit's text. -/
theorem c4_debounce (d0 x1 : String) (t1 : Nat) (rest : List (Nat × String))
    (h : withinGap ((t1, x1) :: rest) = true) :
    runSched (initSched d0) (((t1, x1) :: rest).map mkEdit) =
      { pending := some ((lastEdit (t1, x1) rest).1 + 300), requests := []
        doc := (lastEdit (t1, x1) rest).2 } ∧
    flushSched (runSched (initSched d0) (((t1, x1) :: rest).map mkEdit)) =
      { pending := none
        requests := [((lastEdit (t1, x1) rest).1 + 300, (lastEdit (t1, x1) rest).2)]
        doc := (lastEdit (t1, x1) rest).2 } := by
  have e0 : runSched (initSched d0) (((t1, x1) :: rest).map mkEdit) =
      runSched { pending := some (t1 + 300), requests := [], doc := x1 }
        (rest.map mkEdit) := rfl
  rw [e0, burst_run rest t1 x1 [] h]
  exact ⟨rfl, rfl⟩

/-- C4, witness: two edits 100 time units apart issue exactly one request,
at time 400, carrying the second edit's text. -/
theorem c4_debounce_witness :
    flushSched (runSched (initSched "")
        ([(0, "a"), (100, "ab")].map mkEdit)) =
      { pending := none, requests := [(400, "ab")], doc := "ab" } :=
  (c4_debounce "" "a" 0 [(100, "ab")] (by decide)).2

/-- C5, counterexample.  An edit at time 0 arms a timer for time 300; a
save at time 100 issues an immediate request but — contrary to the claim —
does not cancel or replace the pending debounce timer: the timer is still
pending after the save and fires afterwards, so the trace ends with two
requests instead of one. -/
theorem c5_save_counterexample :
    (runSched (initSched "")
        [(0, SchedEvent.edit "a"), (100, SchedEvent.save)]).pending = some 300 ∧
    (flushSched (runSched (initSched "")
        [(0, SchedEvent.edit "a"), (100, SchedEvent.save)])).requests =
      [(100, "a"), (300, "a")] ∧
    some 300 ≠ (none : Option Nat) := by
  exact ⟨rfl, rfl, by decide⟩

/-- C5, amended.  A save issues an immediate lint request carrying the
document's current text, but leaves any pending debounce timer untouched
(neither canceled nor replaced); a not-yet-due timer survives the save and
will still fire. -/
theorem c5_save_immediate (s : SchedState) (t : Nat)
    (h : ∀ d : Nat, s.pending = some d → t < d) :
    schedStep s t SchedEvent.save =
      { pending := s.pending, requests := s.requests ++ [(t, s.doc)],
        doc := s.doc } := by
  obtain ⟨p, R, doc⟩ := s
  rcases p with _ | d
  · rfl
  · have hd : t < d := h d rfl
    simp [schedStep, fireIfDue, Nat.not_le.mpr hd]

/-- C5, amended, witness: a save at time 100 with a timer pending for time
300 issues the immediate request and leaves the timer pending. -/
theorem c5_save_immediate_witness :
    schedStep { pending := some 300, requests := [], doc := "a" } 100
        SchedEvent.save =
      { pending := some 300, requests := [(100, "a")], doc := "a" } := by
  have h := c5_save_immediate { pending := some 300, requests := [], doc := "a" }
    100 (by intro d hd; injection hd with h2; omega)
  simpa using h

/-- C6, counterexample.  The first demand for `csml` spawns a live process
(id 0).  The process then crashes; nothing removes it from the
`pythonProcesses` map, so the next demand returns the same, now dead,
process handle — the pool state is unchanged, no fresh worker is spawned,
and the next request would be written to the dead process, contrary to the
claim. -/
theorem c6_crash_counterexample :
    (getLinterProcess initPool "csml").1 =
      { id := 0, script := "csml_linter.py", alive := true } ∧
    (getLinterProcess (crashWorker (getLinterProcess initPool "csml").2 "csml")
        "csml").1 =
      { id := 0, script := "csml_linter.py", alive := false } ∧
    (getLinterProcess (crashWorker (getLinterProcess initPool "csml").2 "csml")
        "csml").2 =
      crashWorker (getLinterProcess initPool "csml").2 "csml" := by
  exact ⟨rfl, rfl, rfl⟩

/-- C6, amended.  The pool never detects crashes: `getLinterProcess`
returns whatever process the map holds for the language, dead or alive,
without touching the pool; a fresh worker (bound to the language's linter
script) is spawned and cached only when the map has no entry at all for
that language. -/
theorem c6_pool_no_crash_recovery :
    (∀ (s : PoolState) (lang : String) (p : Proc),
      poolLookup s.procs lang = some p → getLinterProcess s lang = (p, s)) ∧
    (∀ (s : PoolState) (lang : String),
      poolLookup s.procs lang = none →
      getLinterProcess s lang =
        ({ id := s.nextPid
           script := if lang = "csml" then "csml_linter.py" else "mcml_linter.py"
           alive := true },
         { procs := poolInsert s.procs lang
             { id := s.nextPid
               script := if lang = "csml" then "csml_linter.py" else "mcml_linter.py"
               alive := true }
           nextPid := s.nextPid + 1 })) := by
  constructor
  · intro s lang p hp
    simp [getLinterProcess, hp]
  · intro s lang hp
    simp [getLinterProcess, startLinterProcess, hp]

/-- C6, amended, witness: a pool holding a dead `csml` process hands that
dead process back unchanged. -/
theorem c6_pool_no_crash_recovery_witness :
    getLinterProcess
        { procs := [("csml", { id := 0, script := "csml_linter.py", alive := false })]
          nextPid := 1 } "csml" =
      ({ id := 0, script := "csml_linter.py", alive := false },
       { procs := [("csml", { id := 0, script := "csml_linter.py", alive := false })]
         nextPid := 1 }) :=
  c6_pool_no_crash_recovery.1 _ "csml" _ (by decide)

end CsmlExt
